import Mathlib

/-!
Verification of the scrape engine in ScrapePrices.py.

The Python source is shallowly embedded: dictionaries backing catalog items
become a record type, the datetime parse of should_scrape becomes an abstract
parse function (a timestamp is an Int count of seconds), the lock-guarded
ProgressTracker becomes a state record with an update function (the lock makes
each read-modify-write-publish atomic, so the run is a sequence of updates),
the asyncio semaphore becomes a small-step transition system, and the retry
loop of scrape_single_price becomes a recursive function that records the
attempt count, the backoff delays slept, and the final result.
-/

namespace MTG

/-- A catalog item, from the Dict entries of sheet_data.json that
ScrapePrices.py reads.  Keys used by the scraper: Set, Link, Current Price,
Last Scrape.  Optional fields model keys that may be absent (a JSON null read
through dict.get is also modelled as none); `others` stands for every further
key-value pair an item dictionary may carry. -/
structure Item where
  set_ : String
  link : Option String
  currentPrice : Option String
  lastScrape : Option String
  others : List (String × String)
deriving DecidableEq, Repr, Inhabited

/-- Python truthiness of an optional string: None and the empty string are
falsy. -/
def truthy : Option String → Bool
  | none => false
  | some s => s ≠ ""

/-- should_scrape (ScrapePrices.py lines 125-139), with the warning side
effect made explicit: the first component is the returned Bool, the second
records whether the invalid-format warning was logged.  `parse` stands for
datetime.strptime with format "%Y-%m-%d %H:%M" (none = ValueError); `now`
stands for datetime.now(); both are in seconds, so timedelta(hours=h) is
h * 3600 and the code's comparison time_since_last >= timedelta(hours=h)
is now - t >= h * 3600.  The function is total: it never fails, and its only
side effect is the warning. -/
def should_scrape_run (parse : String → Option Int) (now : Int)
    (item : Item) (scrape_interval_hours : Nat) : Bool × Bool :=
  if scrape_interval_hours = 0 then (true, false)
  else
    match item.lastScrape with
    | none => (true, false)
    | some s =>
      if s = "" then (true, false)
      else
        match parse s with
        | some t => (decide ((scrape_interval_hours : Int) * 3600 ≤ now - t), false)
        | none => (true, true)

/-- The Bool that should_scrape returns. -/
def should_scrape (parse : String → Option Int) (now : Int)
    (item : Item) (scrape_interval_hours : Nat) : Bool :=
  (should_scrape_run parse now item scrape_interval_hours).1

/-- The per-item eligibility test of line 143:
item.get("Link") and should_scrape(item, scrape_interval_hours). -/
def eligible (parse : String → Option Int) (now : Int)
    (scrape_interval_hours : Nat) (item : Item) : Bool :=
  truthy item.link && should_scrape parse now item scrape_interval_hours

/-- items_to_scrape (line 143): the eligible subset of the catalog, in
catalog order. -/
def items_to_scrape (parse : String → Option Int) (now : Int)
    (scrape_interval_hours : Nat) (data : List Item) : List Item :=
  data.filter (eligible parse now scrape_interval_hours)

/-- The counters of ProgressTracker (lines 45-101).  start_time and the
derived estimated_remaining_time are real-time quantities outside the
counter invariants and are not modelled. -/
structure ProgressTracker where
  total_items : Nat
  items_to_scrape : Nat
  processed : Nat
  failed : Nat
  successful : Nat
deriving DecidableEq, Repr

/-- ProgressTracker.__init__ (lines 47-54): all counters start at zero;
_initialize_progress_file publishes this state immediately. -/
def ProgressTracker.init (total_items items_to_scrape : Nat) : ProgressTracker :=
  ⟨total_items, items_to_scrape, 0, 0, 0⟩

/-- ProgressTracker.update_progress (lines 70-93): under the lock, increment
processed and exactly one of successful/failed, then republish.  The whole
body runs under progress_lock, so concurrent workers see it as atomic. -/
def ProgressTracker.update_progress (t : ProgressTracker) (success : Bool) :
    ProgressTracker :=
  let t2 : ProgressTracker := { t with processed := t.processed + 1 }
  if success then { t2 with successful := t2.successful + 1 }
  else { t2 with failed := t2.failed + 1 }

/-- The sequence of published ProgressState snapshots over a run: the initial
publish from _initialize_progress_file, then one publish per
update_progress call.  `updates` lists the success flags in the order the
workers acquired the lock. -/
def publishedStates (total_items items_to_scrape : Nat) (updates : List Bool) :
    List ProgressTracker :=
  updates.scanl ProgressTracker.update_progress
    (ProgressTracker.init total_items items_to_scrape)

/-- What the retry loop of scrape_single_price (lines 165-188) did by the
time it finished: how many attempts ran, which backoff delays (in seconds)
were slept between attempts, and the result (none = all attempts failed). -/
structure RetryTrace where
  attempts : Nat
  delays : List Nat
  result : Option String
deriving DecidableEq, Repr

/-- The body of `for attempt in range(retries)` at attempt index `a` with
`remaining = retries - a` attempts still allowed.  Each iteration opens a
fresh context/page, navigates and extracts; any exception in the body is
caught by the `except Exception` arm (line 182): `outcome a` is some text if
attempt `a` succeeds and none if it raises.  On success the loop breaks; on
failure, the code's guard `attempt < retries - 1` — i.e. remaining ≥ 2 —
sleeps 2 ^ attempt seconds (lines 185-188) before continuing. -/
def retryLoopGo (outcome : Nat → Option String) (a : Nat) :
    Nat → RetryTrace
  | 0 => ⟨0, [], none⟩
  | 1 =>
    match outcome a with
    | some v => ⟨1, [], some v⟩
    | none => ⟨1, [], none⟩
  | d + 2 =>
    match outcome a with
    | some v => ⟨1, [], some v⟩
    | none =>
      let rest := retryLoopGo outcome (a + 1) (d + 1)
      ⟨rest.attempts + 1, 2 ^ a :: rest.delays, rest.result⟩

/-- The whole retry loop of lines 165-188, from attempt 0. -/
def retryLoop (outcome : Nat → Option String) (retries : Nat) : RetryTrace :=
  retryLoopGo outcome 0 retries

instance {α β : Type} [DecidableEq α] [DecidableEq β] :
    DecidableEq (Except α β) := fun a b =>
  match a, b with
  | .ok x, .ok y => decidable_of_iff (x = y) (by simp)
  | .error x, .error y => decidable_of_iff (x = y) (by simp)
  | .ok _, .error _ => .isFalse (by simp)
  | .error _, .ok _ => .isFalse (by simp)

/-- One worker invocation as the Progress Tracker and the gather see it:
how many times update_progress was called, and whether the coroutine
returned a value (.ok, carrying the Optional[str] result) or raised
(.error). -/
structure WorkerRun where
  reports : Nat
  result : Except Unit (Option String)
deriving DecidableEq, Repr

/-- scrape_single_price (lines 153-191).  The try/finally of lines 161-190
guarantees exactly one update_progress call once the try block is entered,
and every exception inside the attempt loop is caught per attempt, so the
coroutine then returns normally.  But the statements before the try —
async_playwright().start, p.chromium.launch, item["Set"] — can raise;
`setupOk = false` models that path: no update_progress call is made and the
exception escapes the coroutine. -/
def scrape_single_price (setupOk : Bool) (outcome : Nat → Option String)
    (retries : Nat) : WorkerRun :=
  if setupOk then ⟨1, .ok (retryLoop outcome retries).result⟩
  else ⟨0, .error ()⟩

/-- asyncio.gather(*tasks) at line 194 is called without
return_exceptions=True, so it re-raises as soon as an awaited task raised:
true means scrape_prices itself raises and the statements after line 194
(merge and cleanup) never run. -/
def gather_propagates (runs : List WorkerRun) : Bool :=
  runs.any fun r =>
    match r.result with
    | .error _ => true
    | .ok _ => false

/-- The observable actions of one worker coroutine, in order.  The permit
is the asyncio.Semaphore of line 152. -/
inductive WorkerAction
  | acquirePermit
  | launchBrowser
  | networkAttempt
  | reportOutcome
  | releasePermit
deriving DecidableEq, Repr

/-- The action order of scrape_single_price: `async with semaphore` (line
154) acquires the permit before anything else, in particular before the
browser launch and all network activity, and releases it when the body
exits — after the finally reported the outcome — whether the run succeeded
or failed (`attempts` is the number of attempts that ran). -/
def scrape_single_price_actions (attempts : Nat) : List WorkerAction :=
  .acquirePermit :: .launchBrowser ::
    (List.replicate attempts .networkAttempt ++ [.reportOutcome, .releasePermit])

/-- A snapshot of the scheduler: free permits, workers not yet started,
workers between permit acquisition and release, workers finished. -/
structure SchedState where
  avail : Nat
  waiting : Nat
  inFlight : Nat
  done : Nat
deriving DecidableEq, Repr

/-- Run start: semaphore = asyncio.Semaphore(C) has C free permits, all N
eligible items are waiting, none in flight. -/
def SchedState.init (C N : Nat) : SchedState := ⟨C, N, 0, 0⟩

/-- The scheduler's transitions: a waiting worker acquires a free permit
(entering `async with semaphore`), or an in-flight worker completes —
success or failure — and releases its permit. -/
inductive SchedStep : SchedState → SchedState → Prop
  | acquire (s : SchedState) (hw : 0 < s.waiting) (ha : 0 < s.avail) :
      SchedStep s ⟨s.avail - 1, s.waiting - 1, s.inFlight + 1, s.done⟩
  | release (s : SchedState) (hf : 0 < s.inFlight) :
      SchedStep s ⟨s.avail + 1, s.waiting, s.inFlight - 1, s.done + 1⟩

/-- States the run can reach from start. -/
def SchedReachable (C N : Nat) (s : SchedState) : Prop :=
  Relation.ReflTransGen SchedStep (SchedState.init C N) s

/-- The body of the merge loop (lines 196-200): `if price:` — the update is
applied only when the worker's result is truthy, i.e. neither None nor the
empty string.  A truthy result sets "Current Price" to it and "Last Scrape"
to the timestamp string; every other key of the item is untouched. -/
def applyResult (item : Item) (price : Option String) (nowStr : String) :
    Item :=
  if truthy price then
    { item with currentPrice := price, lastScrape := some nowStr }
  else item

/-- The merge of lines 196-199: zip(items_to_scrape, results) walks the
catalog's eligible items in catalog order and pairs them with the gather
results positionally (asyncio.gather returns results in task order, i.e. in
the eligible subset's input order, regardless of completion order); the
mutation is in place, so the catalog list itself carries the updates. -/
def mergeResults (elig : Item → Bool) (nowStr : String) :
    List Item → List (Option String) → List Item
  | [], _ => []
  | item :: rest, results =>
    if elig item then
      match results with
      | [] => item :: mergeResults elig nowStr rest []
      | r :: rs => applyResult item r nowStr :: mergeResults elig nowStr rest rs
    else item :: mergeResults elig nowStr rest results

/-- scrape_prices (lines 141-203) as a catalog transformer: filter the
eligible subset (line 143), return the data unchanged when it is empty
(lines 145-147), otherwise merge the workers' results back in (lines
196-199) and return the same list (line 203).  `results` is the list
asyncio.gather returned, aligned with items_to_scrape; `nowStr` is the
datetime.now() timestamp written during the merge. -/
def scrape_prices (parse : String → Option Int) (now : Int)
    (scrape_interval_hours : Nat) (results : List (Option String))
    (nowStr : String) (data : List Item) : List Item :=
  if (items_to_scrape parse now scrape_interval_hours data).isEmpty then data
  else mergeResults (eligible parse now scrape_interval_hours) nowStr data results

/-- The file name the progress snapshots are published to (line 15). -/
def PROGRESS_FILE : String := "scrape_progress.json"

/-- The file-system micro-steps a publish can be built from, as a concurrent
reader of the progress file can observe them.  openTruncate and writeAll act
on the published path; writeTemp writes a separate temporary path (the
published file is untouched); renameOver atomically replaces the published
file with a temporary file holding `content`. -/
inductive PublishStep
  | openTruncate
  | writeAll (content : String)
  | flushSync
  | writeTemp (content : String)
  | renameOver (content : String)
deriving DecidableEq, Repr

/-- The content of the published progress file after one micro-step. -/
def applyStep (content : Option String) : PublishStep → Option String
  | .openTruncate => some ""
  | .writeAll s => some s
  | .flushSync => content
  | .writeTemp _ => content
  | .renameOver s => some s

/-- Every content of the published file a concurrent reader can observe
while the steps run: the state before the first step and after each step. -/
def observableStates (initial : Option String) (steps : List PublishStep) :
    List (Option String) :=
  steps.scanl applyStep initial

/-- How _initialize_progress_file (lines 56-68) and update_progress (lines
83-93) publish a snapshot: open(PROGRESS_FILE, "w") truncates the published
file in place, json.dump writes the snapshot, then f.flush() and
os.fsync(). -/
def publishSteps (snapshot : String) : List PublishStep :=
  [.openTruncate, .writeAll snapshot, .flushSync]

/-- Modelled from the spec: the write-to-temporary-then-atomic-replace
publish the spec requires (write the full snapshot to a temporary path,
then atomically rename it over the published file).  Stated for comparison
with publishSteps, which is what the code does. -/
def atomicPublishSteps (snapshot : String) : List PublishStep :=
  [.writeTemp snapshot, .renameOver snapshot]

/-- What a run of scrape_prices leaves behind: how many times
progress.cleanup() ran, whether the progress file was ever created, and
whether it still exists when scrape_prices is left. -/
structure RunOutcome where
  cleanupCalls : Nat
  progressFileCreated : Bool
  progressFileAfter : Bool
deriving DecidableEq, Repr

/-- The lifecycle of the progress file over one scrape_prices call (lines
141-203).  If the eligible subset is empty, scrape_prices returns at line
147 before the ProgressTracker is constructed: no file is created and
cleanup never runs.  Otherwise the ProgressTracker constructor (line 149)
creates the file; `await asyncio.gather(*tasks)` (line 194) has no
try/finally around it, so if any task raised, the exception propagates out
of scrape_prices, progress.cleanup() at line 202 is skipped, and the file
is left on disk.  On normal completion cleanup runs exactly once (line 202)
and removes the file. -/
def scrape_prices_lifecycle (parse : String → Option Int) (now : Int)
    (scrape_interval_hours : Nat) (data : List Item)
    (runs : List WorkerRun) : RunOutcome :=
  if (items_to_scrape parse now scrape_interval_hours data).isEmpty then
    ⟨0, false, false⟩
  else if gather_propagates runs then ⟨0, true, true⟩
  else ⟨1, true, false⟩

/-- The three ways loading the catalog can go for load_data's open +
json.load (lines 110-118). -/
inductive LoadOutcome
  | fileMissing
  | corruptJson
  | loaded (data : List Item)
deriving DecidableEq, Repr

/-- load_data (lines 110-118): FileNotFoundError and json.JSONDecodeError
are caught, logged, and turned into None; a readable catalog is returned. -/
def load_data : LoadOutcome → Option (List Item)
  | .fileMissing => none
  | .corruptJson => none
  | .loaded d => some d

/-- The process exit code produced by main (lines 205-218) under
asyncio.run.  When load_data returns None (missing or corrupt catalog),
main hits `if not data: return` and returns normally, so the interpreter
exits 0.  An empty catalog is also falsy and returns early the same way.
Otherwise main awaits scrape_prices: if the gather re-raised a worker
exception it propagates out of main and asyncio.run, and the interpreter
exits 1; otherwise main saves the data and exits 0.  Per-item scrape
failures are .ok none results, which never raise. -/
def main_exit_code (lo : LoadOutcome) (runs : List WorkerRun) : Nat :=
  match load_data lo with
  | none => 0
  | some d =>
    if d.isEmpty then 0
    else if gather_propagates runs then 1 else 0

/-! ## Progress tracker lemmas -/

lemma update_progress_processed (t : ProgressTracker) (b : Bool) :
    (t.update_progress b).processed = t.processed + 1 := by
  cases b <;> simp [ProgressTracker.update_progress]

lemma update_progress_sum (t : ProgressTracker) (b : Bool) :
    (t.update_progress b).failed + (t.update_progress b).successful =
      t.failed + t.successful + 1 := by
  cases b <;> simp [ProgressTracker.update_progress] <;> omega

lemma scanl_update_mem (s0 : ProgressTracker) (us : List Bool) :
    ∀ s ∈ us.scanl ProgressTracker.update_progress s0,
      (s0.processed = s0.failed + s0.successful →
        s.processed = s.failed + s.successful) ∧
      s.processed ≤ s0.processed + us.length ∧
      s0.processed ≤ s.processed := by
  induction us generalizing s0 with
  | nil =>
    intro s hs
    simp only [List.scanl_nil, List.mem_singleton] at hs
    subst hs
    exact ⟨fun h => h, by omega, le_refl _⟩
  | cons u us ih =>
    intro s hs
    rw [List.scanl_cons, List.singleton_append, List.mem_cons] at hs
    rcases hs with h | h
    · subst h
      exact ⟨fun h => h, by simp, le_refl _⟩
    · obtain ⟨h1, h2, h3⟩ := ih (s0.update_progress u) s h
      have hp := update_progress_processed s0 u
      have hsum := update_progress_sum s0 u
      refine ⟨fun h0 => h1 (by omega), ?_, ?_⟩
      · simp only [List.length_cons]; omega
      · omega

lemma scanl_update_pairwise (s0 : ProgressTracker) (us : List Bool) :
    (us.scanl ProgressTracker.update_progress s0).Pairwise
      (fun a b => a.processed ≤ b.processed) := by
  induction us generalizing s0 with
  | nil => simp
  | cons u us ih =>
    rw [List.scanl_cons, List.singleton_append]
    refine List.Pairwise.cons ?_ (ih _)
    intro b hb
    have h3 := (scanl_update_mem (s0.update_progress u) us b hb).2.2
    have hp := update_progress_processed s0 u
    omega

/-- C1: every published ProgressState snapshot — the initial one and the one
after each update — satisfies processed = failed + successful and
0 ≤ processed ≤ itemsEligible (processed is a Nat, so 0 ≤ processed holds by
type), and processed is monotonically non-decreasing across the run.  The
hypothesis us.length ≤ k holds in every run because each of the k eligible
items calls update_progress at most once (its try/finally). -/
theorem progress_invariants (total k : Nat) (us : List Bool)
    (hk : us.length ≤ k) :
    (∀ s ∈ publishedStates total k us,
      s.processed = s.failed + s.successful ∧ s.processed ≤ k) ∧
    (publishedStates total k us).Pairwise
      (fun a b => a.processed ≤ b.processed) := by
  constructor
  · intro s hs
    obtain ⟨h1, h2, _⟩ := scanl_update_mem (ProgressTracker.init total k) us s hs
    refine ⟨h1 rfl, ?_⟩
    simp only [ProgressTracker.init] at h2
    omega
  · exact scanl_update_pairwise _ us

/-- C1 witness: the invariants at a concrete run of two updates with
itemsEligible = 2. -/
theorem progress_invariants_witness :
    [true, false].length ≤ 2 ∧
    ((∀ s ∈ publishedStates 3 2 [true, false],
        s.processed = s.failed + s.successful ∧ s.processed ≤ 2) ∧
      (publishedStates 3 2 [true, false]).Pairwise
        (fun a b => a.processed ≤ b.processed)) :=
  ⟨by decide, progress_invariants 3 2 [true, false] (by decide)⟩

/-! ## Retry loop lemmas -/

lemma retryLoopGo_allfail (outcome : Nat → Option String)
    (hfail : ∀ n, outcome n = none) :
    ∀ d a, 0 < d → retryLoopGo outcome a d =
      ⟨d, (List.range' a (d - 1)).map (fun i => 2 ^ i), none⟩ := by
  intro d
  induction d with
  | zero => intro a h; exact absurd h (lt_irrefl 0)
  | succ d ih =>
    intro a _
    cases d with
    | zero => simp [retryLoopGo, hfail a]
    | succ e =>
      rw [show e + 1 + 1 = e + 2 from rfl, retryLoopGo, hfail a]
      simp only [ih (a + 1) (Nat.succ_pos e)]
      have hr : List.range' a (e + 1 + 1 - 1) =
          a :: List.range' (a + 1) (e + 1 - 1) := by
        rw [show e + 1 + 1 - 1 = (e + 1 - 1) + 1 from by omega, List.range'_succ]
      rw [hr]
      simp

/-- C2: a worker whose every attempt fails performs exactly `retries`
attempts, sleeps 2 ^ attempt seconds after each failed attempt except the
last — so the delays slept are exactly 1, 2, 4, ..., 2 ^ (retries - 2), no
delay after the final attempt, no jitter, no cap — and returns no result. -/
theorem always_failing_worker_attempts (retries : Nat)
    (outcome : Nat → Option String) (hr : 1 ≤ retries)
    (hfail : ∀ n, outcome n = none) :
    (retryLoop outcome retries).attempts = retries ∧
    (retryLoop outcome retries).delays =
      (List.range (retries - 1)).map (fun a => 2 ^ a) ∧
    (retryLoop outcome retries).result = none := by
  have h := retryLoopGo_allfail outcome hfail retries 0 (by omega)
  have h2 : retryLoop outcome retries =
      ⟨retries, (List.range' 0 (retries - 1)).map (fun i => 2 ^ i), none⟩ := h
  rw [h2, List.range_eq_range']
  exact ⟨rfl, rfl, rfl⟩

/-- C2 witness: three always-failing attempts sleep 1 s then 2 s and yield
no result. -/
theorem always_failing_worker_attempts_witness :
    (retryLoop (fun _ => none) 3).attempts = 3 ∧
    (retryLoop (fun _ => none) 3).delays = [1, 2] ∧
    (retryLoop (fun _ => none) 3).result = none := by
  have h := always_failing_worker_attempts 3 (fun _ => none) (by decide)
    (fun _ => rfl)
  refine ⟨h.1, ?_, h.2.2⟩
  rw [h.2.1]
  decide

/-! ## Worker outcome reporting (failure isolation) -/

/-- C3 counterexample: a worker invocation whose setup raises — e.g.
p.chromium.launch at line 156 fails, or item["Set"] at line 158 raises
KeyError, all before the try/finally of lines 161-190 — reports zero
terminal outcomes to the Progress Tracker, not exactly one, and its
exception makes asyncio.gather (line 194, no return_exceptions) re-raise,
aborting the batch even though a sibling worker ran normally. -/
theorem worker_single_report_counterexample :
    (scrape_single_price false (fun _ => none) 3).reports = 0 ∧
    gather_propagates
      [scrape_single_price false (fun _ => none) 3,
        scrape_single_price true (fun _ => none) 3] = true := by
  decide

/-- C3 amended: once a worker's setup (browser launch and item field access,
lines 155-159) has succeeded, the try/finally guarantees exactly one
terminal outcome is reported to the Progress Tracker on every exit path —
the attempt loop catches every per-attempt exception, so the coroutine
returns normally and never aborts the batch; but a worker whose setup raises
reports nothing and its exception propagates through the gather. -/
theorem worker_single_report (outcome : Nat → Option String) (retries : Nat) :
    (scrape_single_price true outcome retries).reports = 1 ∧
    (scrape_single_price true outcome retries).result =
      .ok (retryLoop outcome retries).result ∧
    gather_propagates [scrape_single_price true outcome retries] = false := by
  refine ⟨rfl, rfl, ?_⟩
  simp [gather_propagates, scrape_single_price]

/-! ## Scheduler concurrency bound -/

lemma sched_reachable_inv (C N : Nat) (s : SchedState)
    (h : SchedReachable C N s) :
    s.avail + s.inFlight = C ∧ s.waiting + s.inFlight + s.done = N := by
  induction h with
  | refl => simp [SchedState.init]
  | tail _ step ih =>
    cases step with
    | acquire hw ha => simp only at ih ⊢; omega
    | release hf => simp only at ih ⊢; omega

/-- C4: in every state the run can reach, at most C = MAX_THREADS workers
are between permit acquisition and release (the asyncio.Semaphore of line
152 keeps avail + inFlight = C); and by the shape of scrape_single_price
(line 154), the permit acquisition is the very first action of a worker —
before the browser launch and any network attempt — and the release is its
very last action, after the outcome was reported, whether the attempts
succeeded or failed. -/
theorem concurrency_bounded (C N : Nat) (s : SchedState)
    (h : SchedReachable C N s) (attempts : Nat) :
    s.inFlight ≤ C ∧
    (scrape_single_price_actions attempts).head? = some .acquirePermit ∧
    (scrape_single_price_actions attempts).getLast? = some .releasePermit := by
  refine ⟨?_, rfl, ?_⟩
  · have := sched_reachable_inv C N s h
    omega
  · have hsplit : scrape_single_price_actions attempts =
        (WorkerAction.acquirePermit :: WorkerAction.launchBrowser ::
          (List.replicate attempts WorkerAction.networkAttempt ++
            [WorkerAction.reportOutcome])) ++ [WorkerAction.releasePermit] := by
      simp [scrape_single_price_actions]
    rw [hsplit, List.getLast?_concat]

/-- C4 witness: the bound at the initial state of a run with C = 2, N = 5,
and the action order of a three-attempt worker. -/
theorem concurrency_bounded_witness :
    (SchedState.init 2 5).inFlight ≤ 2 ∧
    (scrape_single_price_actions 3).head? = some .acquirePermit ∧
    (scrape_single_price_actions 3).getLast? = some .releasePermit :=
  concurrency_bounded 2 5 (SchedState.init 2 5) Relation.ReflTransGen.refl 3

/-! ## Eligibility filter -/

/-- C5: should_scrape returns true iff the interval is 0, or "Last Scrape"
is absent (None or the falsy empty string — strptime rejects "" anyway, per
the hypothesis hparse), or present but unparsable, or at least
intervalHours have elapsed since it; the function is total (never fails)
and its only side effect is the invalid-format warning, logged exactly when
a non-empty "Last Scrape" fails to parse while the interval is non-zero. -/
theorem should_scrape_spec (parse : String → Option Int) (now : Int)
    (item : Item) (hours : Nat) (hparse : parse "" = none) :
    (should_scrape parse now item hours = true ↔
      hours = 0 ∨ item.lastScrape = none ∨
      (∃ s, item.lastScrape = some s ∧ parse s = none) ∨
      (∃ s t, item.lastScrape = some s ∧ parse s = some t ∧
        (hours : Int) * 3600 ≤ now - t)) ∧
    ((should_scrape_run parse now item hours).2 = true ↔
      hours ≠ 0 ∧ ∃ s, item.lastScrape = some s ∧ s ≠ "" ∧ parse s = none) := by
  unfold should_scrape should_scrape_run
  rcases Nat.eq_zero_or_pos hours with h0 | h0
  · subst h0
    simp
  · have hne : hours ≠ 0 := by omega
    rw [if_neg hne]
    cases hls : item.lastScrape with
    | none => simp [hne]
    | some s =>
      by_cases hs : s = ""
      · subst hs
        simp [hne, hparse]
      · cases hp : parse s with
        | none => simp [hne, hs, hp]
        | some t => simp [hne, hs, hp, decide_eq_true_iff]

/-- C5 witness: a concrete parse function and an item refreshed 7200 s
before `now` with intervalHours = 1. -/
theorem should_scrape_spec_witness :
    (fun s => if s = "2024-01-01 00:00" then some (0 : Int) else none) "" =
      none ∧
    should_scrape
      (fun s => if s = "2024-01-01 00:00" then some (0 : Int) else none)
      7200 ⟨"A", some "u", none, some "2024-01-01 00:00", []⟩ 1 = true :=
  ⟨by decide,
    (should_scrape_spec _ 7200 ⟨"A", some "u", none, some "2024-01-01 00:00", []⟩
        1 (by decide)).1.mpr
      (Or.inr (Or.inr (Or.inr
        ⟨"2024-01-01 00:00", 0, rfl, by decide, by decide⟩)))⟩

/-! ## Merge of worker results into the catalog -/

lemma applyResult_untruthy (item : Item) (r : Option String) (ns : String)
    (h : truthy r = false) : applyResult item r ns = item := by
  simp [applyResult, h]

lemma applyResult_fields (item : Item) (r : Option String) (ns : String) :
    (applyResult item r ns).set_ = item.set_ ∧
    (applyResult item r ns).link = item.link ∧
    (applyResult item r ns).others = item.others := by
  unfold applyResult
  by_cases h : truthy r = true <;> simp [h]

lemma mergeResults_length (elig : Item → Bool) (nowStr : String) :
    ∀ (data : List Item) (results : List (Option String)),
      (mergeResults elig nowStr data results).length = data.length := by
  intro data
  induction data with
  | nil => intro results; rfl
  | cons x rest ih =>
    intro results
    unfold mergeResults
    by_cases hx : elig x
    · rw [if_pos hx]
      cases results with
      | nil => simp [ih]
      | cons r rs => simp [ih]
    · rw [if_neg hx]
      simp [ih]

lemma mergeResults_getElem (elig : Item → Bool) (nowStr : String) :
    ∀ (data : List Item) (results : List (Option String)) (j : Nat)
      (item : Item), data[j]? = some item →
      (mergeResults elig nowStr data results)[j]? = some
        (if elig item then
          applyResult item ((results[(data.take j).countP elig]?).getD none)
            nowStr
        else item) := by
  intro data
  induction data with
  | nil => intro results j item hj; simp at hj
  | cons x rest ih =>
    intro results j item hj
    unfold mergeResults
    cases j with
    | zero =>
      rw [List.getElem?_cons_zero, Option.some_inj] at hj
      subst hj
      by_cases hx : elig x
      · rw [if_pos hx]
        cases results with
        | nil => simp [hx, applyResult_untruthy, truthy]
        | cons r rs => simp [hx]
      · rw [if_neg hx]
        simp [hx]
    | succ k =>
      rw [List.getElem?_cons_succ] at hj
      by_cases hx : elig x
      · rw [if_pos hx]
        cases results with
        | nil =>
          rw [List.getElem?_cons_succ, ih [] k item hj]
          simp [List.take_succ_cons, List.countP_cons]
        | cons r rs =>
          rw [List.getElem?_cons_succ, ih rs k item hj]
          simp [List.take_succ_cons, List.countP_cons, hx]
      · rw [if_neg hx]
        rw [List.getElem?_cons_succ, ih results k item hj]
        simp [List.take_succ_cons, List.countP_cons, hx]

lemma eligible_false_of_isEmpty (parse : String → Option Int) (now : Int)
    (hours : Nat) (data : List Item)
    (he : (items_to_scrape parse now hours data).isEmpty = true) :
    ∀ x ∈ data, eligible parse now hours x = false := by
  intro x hx
  rw [items_to_scrape, List.isEmpty_iff] at he
  have := List.filter_eq_nil_iff.mp he x hx
  simpa using this

lemma scrape_prices_getElem (parse : String → Option Int) (now : Int)
    (hours : Nat) (results : List (Option String)) (nowStr : String)
    (data : List Item) (j : Nat) (item : Item) (hj : data[j]? = some item) :
    (scrape_prices parse now hours results nowStr data)[j]? = some
      (if eligible parse now hours item then
        applyResult item
          ((results[(data.take j).countP (eligible parse now hours)]?).getD
            none) nowStr
      else item) := by
  unfold scrape_prices
  by_cases he : (items_to_scrape parse now hours data).isEmpty = true
  · rw [if_pos he]
    have hf := eligible_false_of_isEmpty parse now hours data he item
      (List.getElem?_mem hj)
    rw [hf, if_neg (by simp)]
    exact hj
  · rw [if_neg he]
    exact mergeResults_getElem _ nowStr data results j item hj

lemma scrape_prices_length (parse : String → Option Int) (now : Int)
    (hours : Nat) (results : List (Option String)) (nowStr : String)
    (data : List Item) :
    (scrape_prices parse now hours results nowStr data).length =
      data.length := by
  unfold scrape_prices
  by_cases he : (items_to_scrape parse now hours data).isEmpty = true
  · rw [if_pos he]
  · rw [if_neg he]
    exact mergeResults_length _ nowStr data results

/-- C6 counterexample: an eligible item whose worker returned the empty
string — a result, but a falsy one — is NOT updated: the merge guard
`if price:` (line 197) skips it, so its current-price field stays none
instead of being set to the returned result. -/
theorem merge_all_results_counterexample :
    eligible (fun _ => none) 0 24 ⟨"A", some "u", none, none, []⟩ = true ∧
    scrape_prices (fun _ => none) 0 24 [some ""] "2025-01-01 00:00"
      [⟨"A", some "u", none, none, []⟩] =
      [⟨"A", some "u", none, none, []⟩] ∧
    (⟨"A", some "u", none, none, []⟩ : Item).currentPrice ≠ some "" := by
  decide

/-- C6 amended: scrape_prices returns a list of the input's length in which
the item at each position j of the eligible subset whose worker returned a
truthy (non-None, non-empty) result has its "Current Price" set to that
result and its "Last Scrape" set to the merge timestamp; results are
matched to items by input position — the j-th item receives the result at
index (number of eligible items before j), regardless of completion order —
and every other field, every item whose result was None or the empty
string, and every non-eligible item are unchanged. -/
theorem scrape_prices_merge (parse : String → Option Int) (now : Int)
    (hours : Nat) (results : List (Option String)) (nowStr : String)
    (data : List Item) (j : Nat) (item : Item) (hj : data[j]? = some item) :
    (scrape_prices parse now hours results nowStr data).length =
      data.length ∧
    (scrape_prices parse now hours results nowStr data)[j]? = some
      (if eligible parse now hours item then
        applyResult item
          ((results[(data.take j).countP (eligible parse now hours)]?).getD
            none) nowStr
      else item) ∧
    (∀ i p ns, truthy p = true → applyResult i p ns =
      { i with currentPrice := p, lastScrape := some ns }) ∧
    (∀ i p ns, truthy p = false → applyResult i p ns = i) := by
  refine ⟨scrape_prices_length parse now hours results nowStr data,
    scrape_prices_getElem parse now hours results nowStr data j item hj,
    ?_, fun i p ns hp => applyResult_untruthy i p ns hp⟩
  intro i p ns hp
  simp [applyResult, hp]

/-- C6 witness: the merge at a concrete two-item catalog whose first item
is not eligible (stale link aside, its interval has not elapsed) and whose
second, eligible item received the result at index 0. -/
theorem scrape_prices_merge_witness :
    ([(⟨"A", none, none, none, []⟩ : Item),
        ⟨"B", some "u", none, none, []⟩] : List Item)[1]? =
      some ⟨"B", some "u", none, none, []⟩ ∧
    (scrape_prices (fun _ => none) 0 24 [some "$5.00"] "ts"
        [⟨"A", none, none, none, []⟩, ⟨"B", some "u", none, none, []⟩]).length =
      2 ∧
    (scrape_prices (fun _ => none) 0 24 [some "$5.00"] "ts"
        [⟨"A", none, none, none, []⟩, ⟨"B", some "u", none, none, []⟩])[1]? =
      some (if eligible (fun _ => none) 0 24 ⟨"B", some "u", none, none, []⟩
        then applyResult ⟨"B", some "u", none, none, []⟩
          (([some "$5.00"][(([(⟨"A", none, none, none, []⟩ : Item),
            ⟨"B", some "u", none, none, []⟩] : List Item).take 1).countP
              (eligible (fun _ => none) 0 24)]?).getD none) "ts"
        else ⟨"B", some "u", none, none, []⟩) := by
  have h := scrape_prices_merge (fun _ => none) 0 24 [some "$5.00"] "ts"
    [⟨"A", none, none, none, []⟩, ⟨"B", some "u", none, none, []⟩] 1
    ⟨"B", some "u", none, none, []⟩ (by decide)
  exact ⟨by decide, h.1, h.2.1⟩

/-- C10: an item whose "Link" key is missing or empty is excluded from the
eligible subset by the filter of line 143 even when should_scrape would
mark it due: it is not eligible, never appears in items_to_scrape (so it is
never dispatched to a worker and not counted in itemsEligible — every
counted item has a truthy link), and scrape_prices leaves it unchanged. -/
theorem falsy_link_excluded (parse : String → Option Int) (now : Int)
    (hours : Nat) (data : List Item) (j : Nat) (item : Item)
    (results : List (Option String)) (nowStr : String)
    (hj : data[j]? = some item) (hlink : truthy item.link = false) :
    eligible parse now hours item = false ∧
    item ∉ items_to_scrape parse now hours data ∧
    (∀ x ∈ items_to_scrape parse now hours data, truthy x.link = true) ∧
    (scrape_prices parse now hours results nowStr data)[j]? = some item := by
  have helig : eligible parse now hours item = false := by
    simp [eligible, hlink]
  refine ⟨helig, ?_, ?_, ?_⟩
  · intro hmem
    have := (List.mem_filter.mp hmem).2
    rw [helig] at this
    exact Bool.false_ne_true this
  · intro x hx
    have := (List.mem_filter.mp hx).2
    rw [eligible, Bool.and_eq_true] at this
    exact this.1
  · rw [scrape_prices_getElem parse now hours results nowStr data j item hj,
      helig]
    simp

/-- C10 witness: a due item (no "Last Scrape") whose "Link" is empty is
not eligible, not dispatched, and returned unchanged. -/
theorem falsy_link_excluded_witness :
    ([(⟨"A", some "", none, none, []⟩ : Item)] : List Item)[0]? =
      some ⟨"A", some "", none, none, []⟩ ∧
    truthy (some "") = false ∧
    eligible (fun _ => none) 0 0 ⟨"A", some "", none, none, []⟩ = false ∧
    (⟨"A", some "", none, none, []⟩ : Item) ∉
      items_to_scrape (fun _ => none) 0 0 [⟨"A", some "", none, none, []⟩] ∧
    (scrape_prices (fun _ => none) 0 0 [] "ts"
      [⟨"A", some "", none, none, []⟩])[0]? =
      some ⟨"A", some "", none, none, []⟩ := by
  have h := falsy_link_excluded (fun _ => none) 0 0
    [⟨"A", some "", none, none, []⟩] 0 ⟨"A", some "", none, none, []⟩ [] "ts"
    (by decide) (by decide)
  exact ⟨by decide, by decide, h.1, h.2.1, h.2.2.2⟩

/-! ## Progress snapshot publishing -/

/-- C7 counterexample: the code's publish sequence is open-with-truncate,
write, flush — not write-to-temporary-then-rename — and a concurrent reader
polling between the truncate and the completed write observes an empty
file, which is neither the previous snapshot nor the new one: a torn
observation the claim says can never happen. -/
theorem atomic_publish_counterexample :
    publishSteps "snap" ≠ atomicPublishSteps "snap" ∧
    observableStates (some "old") (publishSteps "snap") =
      [some "old", some "", some "snap", some "snap"] ∧
    some "" ∈ observableStates (some "old") (publishSteps "snap") ∧
    some "" ∉ [some "old", some "snap"] := by
  decide

/-- C7 amended: every publish — the initial write and each rewrite —
truncates the published file in place and rewrites the full snapshot (then
flushes and fsyncs), so a concurrent reader can observe the empty
intermediate state; the temp-then-atomic-replace sequence the spec asks
for would only ever expose the old or the new snapshot. -/
theorem publish_truncates_in_place (snapshot : String)
    (initial : Option String) :
    observableStates initial (publishSteps snapshot) =
      [initial, some "", some snapshot, some snapshot] ∧
    observableStates initial (atomicPublishSteps snapshot) =
      [initial, initial, some snapshot] :=
  ⟨rfl, rfl⟩

/-! ## Run-end cleanup -/

/-- C8 counterexample: a run with one eligible item whose worker raised
during setup — asyncio.gather re-raises, the exception leaves scrape_prices
before line 202, cleanup is called zero times (not exactly once) and the
progress file is still on disk after the run ends. -/
theorem cleanup_every_path_counterexample :
    (scrape_prices_lifecycle (fun _ => none) 0 24
      [⟨"A", some "u", none, none, []⟩]
      [⟨0, Except.error ()⟩]).cleanupCalls = 0 ∧
    (scrape_prices_lifecycle (fun _ => none) 0 24
      [⟨"A", some "u", none, none, []⟩]
      [⟨0, Except.error ()⟩]).progressFileAfter = true := by
  decide

/-- C8 amended: cleanup is invoked exactly once — and the progress file is
gone afterwards — only on normal completion of a non-empty run; on the
early exit (no eligible items) cleanup is never invoked, though no progress
file was ever created so none exists; and on abnormal termination (a worker
exception re-raised by the gather after partial progress) cleanup is
skipped and the progress file is left on the filesystem. -/
theorem cleanup_lifecycle (parse : String → Option Int) (now : Int)
    (hours : Nat) (data : List Item) (runs : List WorkerRun) :
    ((scrape_prices_lifecycle parse now hours data runs).cleanupCalls = 1 ↔
      (items_to_scrape parse now hours data).isEmpty = false ∧
        gather_propagates runs = false) ∧
    ((scrape_prices_lifecycle parse now hours data runs).progressFileAfter =
        true ↔
      (items_to_scrape parse now hours data).isEmpty = false ∧
        gather_propagates runs = true) ∧
    (scrape_prices_lifecycle parse now hours data runs).cleanupCalls ≤ 1 ∧
    (scrape_prices_lifecycle parse now hours data runs).progressFileCreated =
      !(items_to_scrape parse now hours data).isEmpty := by
  unfold scrape_prices_lifecycle
  by_cases he : (items_to_scrape parse now hours data).isEmpty = true
  · rw [if_pos he]
    simp [he]
  · rw [if_neg he]
    by_cases hg : gather_propagates runs = true
    · rw [if_pos hg]
      simp_all
    · rw [if_neg hg]
      simp_all

/-! ## Process exit codes -/

/-- C9 counterexample: a missing (or corrupt) catalog file is caught inside
load_data, which returns None; main then returns normally and the process
exits 0 — not the non-zero code the claim requires for an unrecoverable
setup failure. -/
theorem exit_code_counterexample :
    load_data LoadOutcome.fileMissing = none ∧
    main_exit_code LoadOutcome.fileMissing [] = 0 ∧
    main_exit_code LoadOutcome.corruptJson [] = 0 := by
  decide

/-- C9 amended: the process exits 0 on normal completion — whatever each
worker returned, so per-item scrape failures (.ok none) never change the
exit code — and it also exits 0 when the catalog is missing or corrupt,
because load_data catches the error and main returns normally; the exit
code is non-zero exactly when the catalog loaded non-empty and a worker
exception propagated through the gather out of main. -/
theorem exit_codes (lo : LoadOutcome) (itemResults : List (Option String))
    (runs : List WorkerRun) :
    main_exit_code lo (itemResults.map fun r => ⟨1, Except.ok r⟩) = 0 ∧
    main_exit_code LoadOutcome.fileMissing runs = 0 ∧
    main_exit_code LoadOutcome.corruptJson runs = 0 ∧
    (main_exit_code lo runs ≠ 0 ↔
      (∃ d, lo = LoadOutcome.loaded d ∧ d ≠ []) ∧
        gather_propagates runs = true) := by
  have hok : gather_propagates (itemResults.map fun r => ⟨1, Except.ok r⟩) =
      false := by
    simp [gather_propagates]
  cases lo with
  | fileMissing => simp [main_exit_code, load_data]
  | corruptJson => simp [main_exit_code, load_data]
  | loaded d =>
    by_cases hd : d.isEmpty = true
    · have hd2 : d = [] := by simpa [List.isEmpty_iff] using hd
      simp [main_exit_code, load_data, hd, hd2]
    · have hd2 : d ≠ [] := by simpa [List.isEmpty_iff] using hd
      by_cases hg : gather_propagates runs = true
      · simp [main_exit_code, load_data, hd, hok, hg, hd2]
      · simp [main_exit_code, load_data, hd, hok, hg, hd2]

end MTG
